import Mathlib

/-!
Verification of the grid core of gym-multigrid (src/gym_multigrid/grid.py)
against its natural-language specification.

The Python module is shallowly embedded: the flat row-major cell store, the
wall-drawing helpers, the rotation, the encoder, the render-tile cache key and
the visibility sweep `process_vis` are translated statement by statement into
executable Lean definitions.  Machine integers are modelled as `Nat` (all the
quantities involved are non-negative indices and sizes) and every operation
that can fail a bounds assertion in Python returns an `Option`.
-/

namespace GymMultigrid

/-- External world object (object.py, outside the inspected module).  The grid
core consumes only the capabilities listed in the spec: the opacity predicate
`see_behind` (false means the object blocks sight), the numeric encoding
`enc` handed back by `encode(world)`, and the identity attributes. -/
structure WorldObj where
  ty : Nat
  color : Nat
  see_behind : Bool
  enc : List Nat
deriving DecidableEq

/-- External world configuration: the encoding width `encode_dim`,
the sentinel index `OBJECT_TO_IDX["empty"]`, and the (external, otherwise
unspecified) wall object produced by the `Wall` factory.  The spec only fixes
that a wall is an object that blocks sight. -/
structure World where
  encode_dim : Nat
  emptyIdx : Nat
  wall : WorldObj
  wall_blocks : wall.see_behind = false

/-- Modelled from the spec: the external `Wall` object factory from object.py
(the object catalogue is not under src/); the spec says the default factory
builds "an opaque wall object", so the result is the world's wall object. -/
def Wall (world : World) : WorldObj := world.wall

/-- Grid.__init__ stores `width`, `height` and the flat row-major cell list
(index = y * width + x).  The Python constructor also asserts
`width >= 3` and `height >= 3`; theorems that rely on the construction
invariant carry it as a hypothesis. -/
structure Grid where
  width : Nat
  height : Nat
  cells : List (Option WorldObj)
deriving DecidableEq

/-- Grid(width, height): all `width * height` slots start empty. -/
def Grid.mk0 (w h : Nat) : Grid := ⟨w, h, List.replicate (w * h) none⟩

/-- Grid.get at an in-range flat index; the enclosing checked variant
`Grid.get?` performs the bounds assertions of the Python method. -/
def Grid.get (g : Grid) (i j : Nat) : Option WorldObj :=
  g.cells.getD (j * g.width + i) none

/-- Grid.set at an in-range flat index; the enclosing checked variant
`Grid.set?` performs the bounds assertions of the Python method. -/
def Grid.set (g : Grid) (i j : Nat) (v : Option WorldObj) : Grid :=
  { g with cells := g.cells.set (j * g.width + i) v }

/-- Grid.get with the bounds assertions: `assert 0 <= i < width` and
`assert 0 <= j < height`; an assertion failure is `none`. -/
def Grid.get? (g : Grid) (i j : Nat) : Option (Option WorldObj) :=
  if i < g.width ∧ j < g.height then some (g.get i j) else none

/-- Grid.set with the bounds assertions of the Python method. -/
def Grid.set? (g : Grid) (i j : Nat) (v : Option WorldObj) : Option Grid :=
  if i < g.width ∧ j < g.height then some (g.set i j v) else none

/-- Boolean visibility mask of shape `(w, h)` (numpy `mask[i, j]`),
as produced by `np.zeros(shape=(width, height), dtype=bool)` plus updates. -/
structure Mask where
  w : Nat
  h : Nat
  f : Nat → Nat → Bool

/-- np.zeros((w, h), dtype=bool). -/
def Mask.zeros (w h : Nat) : Mask := ⟨w, h, fun _ _ => false⟩

/-- Reading `mask[i, j]`; out-of-range indices raise in numpy, hence `none`. -/
def Mask.get? (m : Mask) (i j : Nat) : Option Bool :=
  if i < m.w ∧ j < m.h then some (m.f i j) else none

/-- Writing `mask[i, j] = b`; out-of-range indices raise in numpy. -/
def Mask.set? (m : Mask) (i j : Nat) (b : Bool) : Option Mask :=
  if i < m.w ∧ j < m.h then
    some ⟨m.w, m.h, fun x y => if x = i ∧ y = j then b else m.f x y⟩
  else none

/- ### Basic facts about the cell store and the mask -/

theorem flat_lt {i j w h : Nat} (hi : i < w) (hj : j < h) :
    j * w + i < w * h := by
  have h1 : (j + 1) * w ≤ h * w := Nat.mul_le_mul_right w (Nat.succ_le_of_lt hj)
  have h2 : (j + 1) * w = j * w + w := by ring
  have h3 : h * w = w * h := Nat.mul_comm h w
  omega

theorem flat_inj {a b i j w : Nat} (ha : a < w) (hi : i < w)
    (h : b * w + a = j * w + i) : a = i ∧ b = j := by
  have hw : 0 < w := Nat.lt_of_le_of_lt (Nat.zero_le a) ha
  have h1 : (a + b * w) % w = a := by
    rw [Nat.add_mul_mod_self_right, Nat.mod_eq_of_lt ha]
  have h2 : (i + j * w) % w = i := by
    rw [Nat.add_mul_mod_self_right, Nat.mod_eq_of_lt hi]
  have h3 : a + b * w = i + j * w := by omega
  have h4 : a = i := by rw [← h1, ← h2, h3]
  refine ⟨h4, ?_⟩
  have h5 : b * w = j * w := by omega
  exact Nat.eq_of_mul_eq_mul_right hw h5

@[simp] theorem Grid.width_set (g : Grid) (i j : Nat) (v : Option WorldObj) :
    (g.set i j v).width = g.width := rfl

@[simp] theorem Grid.height_set (g : Grid) (i j : Nat) (v : Option WorldObj) :
    (g.set i j v).height = g.height := rfl

@[simp] theorem Grid.length_set (g : Grid) (i j : Nat) (v : Option WorldObj) :
    (g.set i j v).cells.length = g.cells.length := by
  simp [Grid.set]

theorem Grid.get_set_self {g : Grid} {i j : Nat} (v : Option WorldObj)
    (hlen : g.cells.length = g.width * g.height)
    (hi : i < g.width) (hj : j < g.height) :
    (g.set i j v).get i j = v := by
  have hidx : j * g.width + i < g.cells.length := by
    rw [hlen]; exact flat_lt hi hj
  simp [Grid.get, Grid.set, List.getD, List.getElem?_set_self hidx]

theorem Grid.get_set_of_ne {g : Grid} {i j x y : Nat} (v : Option WorldObj)
    (hi : i < g.width) (hx : x < g.width)
    (hne : ¬(x = i ∧ y = j)) :
    (g.set i j v).get x y = g.get x y := by
  have hidx : j * g.width + i ≠ y * g.width + x := by
    intro hcontra
    exact hne (flat_inj hx hi hcontra.symm)
  simp [Grid.get, Grid.set, List.getD, List.getElem?_set_ne hidx]

theorem Grid.get?_some {g : Grid} {i j : Nat} (hi : i < g.width) (hj : j < g.height) :
    g.get? i j = some (g.get i j) := by
  simp [Grid.get?, hi, hj]

theorem Grid.set?_some {g : Grid} {i j : Nat} (v : Option WorldObj)
    (hi : i < g.width) (hj : j < g.height) :
    g.set? i j v = some (g.set i j v) := by
  simp [Grid.set?, hi, hj]

theorem Grid.get_mk0 (w h : Nat) (i j : Nat) : (Grid.mk0 w h).get i j = none := by
  unfold Grid.mk0 Grid.get
  rcases Nat.lt_or_ge (j * w + i) (List.replicate (w * h) (none : Option WorldObj)).length with hlt | hge
  · simp [List.getD, List.getElem?_eq_getElem hlt]
  · simp [List.getD, List.getElem?_eq_none hge]

theorem Mask.get?_eq {m : Mask} {i j : Nat} (hi : i < m.w) (hj : j < m.h) :
    m.get? i j = some (m.f i j) := by
  simp [Mask.get?, hi, hj]

theorem Mask.set?_eq {m : Mask} {i j : Nat} (b : Bool)
    (hi : i < m.w) (hj : j < m.h) :
    m.set? i j b =
      some ⟨m.w, m.h, fun x y => if x = i ∧ y = j then b else m.f x y⟩ := by
  simp [Mask.set?, hi, hj]

theorem Mask.set?_dims {m m' : Mask} {i j : Nat} {b : Bool}
    (h : m.set? i j b = some m') : m'.w = m.w ∧ m'.h = m.h := by
  unfold Mask.set? at h
  split at h
  · cases h; exact ⟨rfl, rfl⟩
  · cases h

theorem Mask.set?_f {m m' : Mask} {i j : Nat} {b : Bool}
    (h : m.set? i j b = some m') :
    ∀ x y, m'.f x y = if x = i ∧ y = j then b else m.f x y := by
  unfold Mask.set? at h
  split at h
  · cases h; intro x y; rfl
  · cases h

/- ### Generic lemmas about monadic folds over `Option` -/

theorem foldlM_some_ind {α σ : Type} (f : σ → α → Option σ) (P : σ → Prop) :
    ∀ (l : List α) (s s' : σ),
    (∀ a, a ∈ l → ∀ x y, P x → f x a = some y → P y) →
    P s → l.foldlM f s = some s' → P s' := by
  intro l
  induction l with
  | nil =>
      intro s s' _ hs h
      simp only [List.foldlM_nil] at h
      cases h; exact hs
  | cons a t ih =>
      intro s s' hstep hs h
      rw [List.foldlM_cons] at h
      cases hfa : f s a with
      | none => rw [hfa] at h; cases h
      | some x =>
          rw [hfa] at h
          exact ih x s' (fun b hb => hstep b (List.mem_cons_of_mem a hb))
            (hstep a (List.mem_cons_self a t) s x hs hfa) h

theorem foldlM_total {α σ : Type} (f : σ → α → Option σ) (P : σ → Prop) :
    ∀ (l : List α) (s : σ),
    (∀ a, a ∈ l → ∀ x, P x → ∃ y, f x a = some y ∧ P y) →
    P s → ∃ s', l.foldlM f s = some s' ∧ P s' := by
  intro l
  induction l with
  | nil =>
      intro s _ hs
      exact ⟨s, by simp only [List.foldlM_nil]; rfl, hs⟩
  | cons a t ih =>
      intro s hstep hs
      obtain ⟨x, hx, hPx⟩ := hstep a (List.mem_cons_self a t) s hs
      obtain ⟨s', hs', hPs'⟩ := ih x (fun b hb => hstep b (List.mem_cons_of_mem a hb)) hPx
      exact ⟨s', by rw [List.foldlM_cons, hx]; exact hs', hPs'⟩

/- ### The visibility sweep: Grid.process_vis -/

/-- Marks written by one accepted forward-pass step of `process_vis`:
`mask[i+1, j] = True`, and when `j > 0` also `mask[i+1, j-1] = True` and
`mask[i, j-1] = True`. -/
def Mask.propF (m : Mask) (i j : Nat) : Option Mask := do
  let m1 ← m.set? (i + 1) j true
  if 0 < j then do
    let m2 ← m1.set? (i + 1) (j - 1) true
    m2.set? i (j - 1) true
  else pure m1

/-- Marks written by one accepted backward-pass step of `process_vis`:
`mask[i-1, j] = True`, and when `j > 0` also `mask[i-1, j-1] = True` and
`mask[i, j-1] = True`. -/
def Mask.propB (m : Mask) (i j : Nat) : Option Mask := do
  let m1 ← m.set? (i - 1) j true
  if 0 < j then do
    let m2 ← m1.set? (i - 1) (j - 1) true
    m2.set? i (j - 1) true
  else pure m1

/-- One iteration of the forward pass of `process_vis` at column `i` of row
`j`: skip unless `mask[i, j]` holds, skip when the cell is occupied and does
not see behind, otherwise write the forward marks. -/
def Grid.stepF (g : Grid) (j : Nat) (m : Mask) (i : Nat) : Option Mask := do
  let b ← m.get? i j
  if b = false then pure m
  else do
    let cell ← g.get? i j
    match cell with
    | some o => if o.see_behind = false then pure m else m.propF i j
    | none => m.propF i j

/-- One iteration of the backward pass of `process_vis` at column `i` of row
`j`. -/
def Grid.stepB (g : Grid) (j : Nat) (m : Mask) (i : Nat) : Option Mask := do
  let b ← m.get? i j
  if b = false then pure m
  else do
    let cell ← g.get? i j
    match cell with
    | some o => if o.see_behind = false then pure m else m.propB i j
    | none => m.propB i j

/-- Both sweeps over row `j` of `process_vis`: the forward pass over
`i in range(0, width-1)` followed by the backward pass over
`i in reversed(range(1, width))`. -/
def Grid.processRow (g : Grid) (m : Mask) (j : Nat) : Option Mask := do
  let m1 ← (List.range (g.width - 1)).foldlM (g.stepF j) m
  (List.range' 1 (g.width - 1)).reverse.foldlM (g.stepB j) m1

/-- One iteration of the pruning loop of `process_vis`: clear cell `(i, j)`
to `None` when `mask[i, j]` is false. -/
def Grid.pruneCell (m : Mask) (g : Grid) (i j : Nat) : Option Grid := do
  let b ← m.get? i j
  if b = false then g.set? i j none else pure g

/-- The pruning loops of `process_vis`: `for j in range(0, height)`,
`for i in range(0, width)`. -/
def Grid.prune (m : Mask) (g : Grid) : Option Grid :=
  (List.range g.height).foldlM
    (fun g2 j => (List.range g.width).foldlM (fun g3 i => Grid.pruneCell m g3 i j) g2) g

/-- Grid.process_vis: seed the all-false mask at `agent_pos`, sweep the rows
from `height-1` down to `0` (forward then backward pass in each row), then
destructively clear every cell whose mask entry is false.  The Python method
mutates `grid` in place and returns `mask`; the embedding returns the mask
together with the pruned grid. -/
def Grid.process_vis (g : Grid) (agent_pos : Nat × Nat) : Option (Mask × Grid) := do
  let m0 ← (Mask.zeros g.width g.height).set? agent_pos.1 agent_pos.2 true
  let m ← (List.range g.height).reverse.foldlM g.processRow m0
  let g' ← Grid.prune m g
  pure (m, g')

/- ### Characterizations of the sweep steps -/

theorem Mask.propF_char {m m' : Mask} {i j : Nat} (h : m.propF i j = some m') :
    m'.w = m.w ∧ m'.h = m.h ∧
    ∀ x y, (m'.f x y = true ↔
      (x = i + 1 ∧ y = j) ∨ (0 < j ∧ x = i + 1 ∧ y = j - 1) ∨
      (0 < j ∧ x = i ∧ y = j - 1) ∨ m.f x y = true) := by
  unfold Mask.propF at h
  cases hm1 : m.set? (i + 1) j true with
  | none => rw [hm1] at h; cases h
  | some m1 =>
      rw [hm1] at h
      have hd1 := Mask.set?_dims hm1
      have hf1 := Mask.set?_f hm1
      have h2 : (if 0 < j then do
          let m2 ← m1.set? (i + 1) (j - 1) true
          m2.set? i (j - 1) true
        else pure m1) = some m' := h
      by_cases hj : 0 < j
      · rw [if_pos hj] at h2
        cases hm2 : m1.set? (i + 1) (j - 1) true with
        | none => rw [hm2] at h2; cases h2
        | some m2 =>
            rw [hm2] at h2
            have hd2 := Mask.set?_dims hm2
            have hf2 := Mask.set?_f hm2
            have h3 : m2.set? i (j - 1) true = some m' := h2
            have hd3 := Mask.set?_dims h3
            have hf3 := Mask.set?_f h3
            refine ⟨by omega, by omega, ?_⟩
            intro x y
            rw [hf3 x y, hf2 x y, hf1 x y]
            by_cases c3 : x = i ∧ y = j - 1
            · simp [c3, hj]
            · rw [if_neg c3]
              by_cases c2 : x = i + 1 ∧ y = j - 1
              · simp [c2, hj]
              · rw [if_neg c2]
                by_cases c1 : x = i + 1 ∧ y = j
                · simp [c1]
                · rw [if_neg c1]
                  constructor
                  · intro hm; exact Or.inr (Or.inr (Or.inr hm))
                  · intro hcontra
                    rcases hcontra with h' | h' | h' | h'
                    · exact absurd h' c1
                    · exact absurd ⟨h'.2.1, h'.2.2⟩ c2
                    · exact absurd ⟨h'.2.1, h'.2.2⟩ c3
                    · exact h'
      · rw [if_neg hj] at h2
        cases h2
        refine ⟨hd1.1, hd1.2, ?_⟩
        intro x y
        rw [hf1 x y]
        by_cases c1 : x = i + 1 ∧ y = j
        · simp [c1]
        · rw [if_neg c1]
          constructor
          · intro hm; exact Or.inr (Or.inr (Or.inr hm))
          · intro hcontra
            rcases hcontra with h' | h' | h' | h'
            · exact absurd h' c1
            · exact absurd h'.1 hj
            · exact absurd h'.1 hj
            · exact h'

theorem Mask.propB_char {m m' : Mask} {i j : Nat} (h : m.propB i j = some m') :
    m'.w = m.w ∧ m'.h = m.h ∧
    ∀ x y, (m'.f x y = true ↔
      (x = i - 1 ∧ y = j) ∨ (0 < j ∧ x = i - 1 ∧ y = j - 1) ∨
      (0 < j ∧ x = i ∧ y = j - 1) ∨ m.f x y = true) := by
  unfold Mask.propB at h
  cases hm1 : m.set? (i - 1) j true with
  | none => rw [hm1] at h; cases h
  | some m1 =>
      rw [hm1] at h
      have hd1 := Mask.set?_dims hm1
      have hf1 := Mask.set?_f hm1
      have h2 : (if 0 < j then do
          let m2 ← m1.set? (i - 1) (j - 1) true
          m2.set? i (j - 1) true
        else pure m1) = some m' := h
      by_cases hj : 0 < j
      · rw [if_pos hj] at h2
        cases hm2 : m1.set? (i - 1) (j - 1) true with
        | none => rw [hm2] at h2; cases h2
        | some m2 =>
            rw [hm2] at h2
            have hd2 := Mask.set?_dims hm2
            have hf2 := Mask.set?_f hm2
            have h3 : m2.set? i (j - 1) true = some m' := h2
            have hd3 := Mask.set?_dims h3
            have hf3 := Mask.set?_f h3
            refine ⟨by omega, by omega, ?_⟩
            intro x y
            rw [hf3 x y, hf2 x y, hf1 x y]
            by_cases c3 : x = i ∧ y = j - 1
            · simp [c3, hj]
            · rw [if_neg c3]
              by_cases c2 : x = i - 1 ∧ y = j - 1
              · simp [c2, hj]
              · rw [if_neg c2]
                by_cases c1 : x = i - 1 ∧ y = j
                · simp [c1]
                · rw [if_neg c1]
                  constructor
                  · intro hm; exact Or.inr (Or.inr (Or.inr hm))
                  · intro hcontra
                    rcases hcontra with h' | h' | h' | h'
                    · exact absurd h' c1
                    · exact absurd ⟨h'.2.1, h'.2.2⟩ c2
                    · exact absurd ⟨h'.2.1, h'.2.2⟩ c3
                    · exact h'
      · rw [if_neg hj] at h2
        cases h2
        refine ⟨hd1.1, hd1.2, ?_⟩
        intro x y
        rw [hf1 x y]
        by_cases c1 : x = i - 1 ∧ y = j
        · simp [c1]
        · rw [if_neg c1]
          constructor
          · intro hm; exact Or.inr (Or.inr (Or.inr hm))
          · intro hcontra
            rcases hcontra with h' | h' | h' | h'
            · exact absurd h' c1
            · exact absurd h'.1 hj
            · exact absurd h'.1 hj
            · exact h'

/-- Inverting one forward step: either the step skipped (mask unchanged)
or the origin cell was marked and transparent and the forward marks were
written. -/
theorem Grid.stepF_inv {g : Grid} {j i : Nat} {m m' : Mask}
    (h : g.stepF j m i = some m') :
    m' = m ∨ (m.f i j = true ∧ m.propF i j = some m') := by
  unfold Grid.stepF at h
  cases hb : m.get? i j with
  | none => rw [hb] at h; cases h
  | some b =>
      rw [hb] at h
      have hbv : b = m.f i j := by
        unfold Mask.get? at hb
        split at hb
        · cases hb; rfl
        · cases hb
      have h2 : (if b = false then pure m else do
          let cell ← g.get? i j
          match cell with
          | some o => if o.see_behind = false then pure m else m.propF i j
          | none => m.propF i j) = some m' := h
      by_cases hbf : b = false
      · rw [if_pos hbf] at h2; cases h2; exact Or.inl rfl
      · rw [if_neg hbf] at h2
        have hbt : m.f i j = true := by rw [← hbv]; cases b <;> simp_all
        cases hcell : g.get? i j with
        | none => rw [hcell] at h2; cases h2
        | some cell =>
            rw [hcell] at h2
            cases cell with
            | none => exact Or.inr ⟨hbt, h2⟩
            | some o =>
                have h3 : (if o.see_behind = false then pure m else m.propF i j) = some m' := h2
                by_cases hsb : o.see_behind = false
                · rw [if_pos hsb] at h3; cases h3; exact Or.inl rfl
                · rw [if_neg hsb] at h3; exact Or.inr ⟨hbt, h3⟩

/-- Inverting one backward step. -/
theorem Grid.stepB_inv {g : Grid} {j i : Nat} {m m' : Mask}
    (h : g.stepB j m i = some m') :
    m' = m ∨ (m.f i j = true ∧ m.propB i j = some m') := by
  unfold Grid.stepB at h
  cases hb : m.get? i j with
  | none => rw [hb] at h; cases h
  | some b =>
      rw [hb] at h
      have hbv : b = m.f i j := by
        unfold Mask.get? at hb
        split at hb
        · cases hb; rfl
        · cases hb
      have h2 : (if b = false then pure m else do
          let cell ← g.get? i j
          match cell with
          | some o => if o.see_behind = false then pure m else m.propB i j
          | none => m.propB i j) = some m' := h
      by_cases hbf : b = false
      · rw [if_pos hbf] at h2; cases h2; exact Or.inl rfl
      · rw [if_neg hbf] at h2
        have hbt : m.f i j = true := by rw [← hbv]; cases b <;> simp_all
        cases hcell : g.get? i j with
        | none => rw [hcell] at h2; cases h2
        | some cell =>
            rw [hcell] at h2
            cases cell with
            | none => exact Or.inr ⟨hbt, h2⟩
            | some o =>
                have h3 : (if o.see_behind = false then pure m else m.propB i j) = some m' := h2
                by_cases hsb : o.see_behind = false
                · rw [if_pos hsb] at h3; cases h3; exact Or.inl rfl
                · rw [if_neg hsb] at h3; exact Or.inr ⟨hbt, h3⟩

/-- Inverting a whole row of the sweep into its forward and backward folds. -/
theorem Grid.processRow_inv {g : Grid} {m m' : Mask} {j : Nat}
    (h : g.processRow m j = some m') :
    ∃ m1, (List.range (g.width - 1)).foldlM (g.stepF j) m = some m1 ∧
      (List.range' 1 (g.width - 1)).reverse.foldlM (g.stepB j) m1 = some m' := by
  unfold Grid.processRow at h
  cases h1 : (List.range (g.width - 1)).foldlM (g.stepF j) m with
  | none => rw [h1] at h; cases h
  | some m1 =>
      rw [h1] at h
      exact ⟨m1, rfl, h⟩

/- ### Monotonicity: the sweep only ever sets mask entries to true -/

theorem Grid.stepF_mono {g : Grid} {j i : Nat} {m m' : Mask}
    (h : g.stepF j m i = some m') {x y : Nat} (hxy : m.f x y = true) :
    m'.f x y = true := by
  rcases Grid.stepF_inv h with rfl | ⟨_, hp⟩
  · exact hxy
  · exact ((Mask.propF_char hp).2.2 x y).mpr (Or.inr (Or.inr (Or.inr hxy)))

theorem Grid.stepB_mono {g : Grid} {j i : Nat} {m m' : Mask}
    (h : g.stepB j m i = some m') {x y : Nat} (hxy : m.f x y = true) :
    m'.f x y = true := by
  rcases Grid.stepB_inv h with rfl | ⟨_, hp⟩
  · exact hxy
  · exact ((Mask.propB_char hp).2.2 x y).mpr (Or.inr (Or.inr (Or.inr hxy)))

theorem Grid.processRow_mono {g : Grid} {m m' : Mask} {j : Nat}
    (h : g.processRow m j = some m') {x y : Nat} (hxy : m.f x y = true) :
    m'.f x y = true := by
  obtain ⟨m1, h1, h2⟩ := Grid.processRow_inv h
  have hm1 : m1.f x y = true :=
    foldlM_some_ind (g.stepF j) (fun mm => mm.f x y = true) _ m m1
      (fun a _ x' y' hx' hf => Grid.stepF_mono hf hx') hxy h1
  exact foldlM_some_ind (g.stepB j) (fun mm => mm.f x y = true) _ m1 m'
    (fun a _ x' y' hx' hf => Grid.stepB_mono hf hx') hm1 h2

/- ### Rows strictly below the observer's row stay false -/

/-- The invariant behind claim C7: if no marked cell lies strictly below row
`y0`, one sweep step keeps it that way — a step only fires from a marked cell
(so from a row at `y0` or above) and writes into its own row and the row
one step toward `y = 0`. -/
theorem Grid.stepF_below {g : Grid} {j i y0 : Nat} {m m' : Mask}
    (h : g.stepF j m i = some m')
    (hm : ∀ x y, y0 < y → m.f x y = false) :
    ∀ x y, y0 < y → m'.f x y = false := by
  rcases Grid.stepF_inv h with rfl | ⟨hij, hp⟩
  · exact hm
  · have hj : j ≤ y0 := by
      by_contra hc
      have := hm i j (by omega)
      rw [hij] at this; cases this
    intro x y hy
    have hchar := (Mask.propF_char hp).2.2 x y
    cases hval : m'.f x y with
    | false => rfl
    | true =>
        rcases hchar.mp hval with h' | h' | h' | h'
        · omega
        · omega
        · omega
        · rw [hm x y hy] at h'; cases h'

theorem Grid.stepB_below {g : Grid} {j i y0 : Nat} {m m' : Mask}
    (h : g.stepB j m i = some m')
    (hm : ∀ x y, y0 < y → m.f x y = false) :
    ∀ x y, y0 < y → m'.f x y = false := by
  rcases Grid.stepB_inv h with rfl | ⟨hij, hp⟩
  · exact hm
  · have hj : j ≤ y0 := by
      by_contra hc
      have := hm i j (by omega)
      rw [hij] at this; cases this
    intro x y hy
    have hchar := (Mask.propB_char hp).2.2 x y
    cases hval : m'.f x y with
    | false => rfl
    | true =>
        rcases hchar.mp hval with h' | h' | h' | h'
        · omega
        · omega
        · omega
        · rw [hm x y hy] at h'; cases h'

theorem Grid.processRow_below {g : Grid} {j y0 : Nat} {m m' : Mask}
    (h : g.processRow m j = some m')
    (hm : ∀ x y, y0 < y → m.f x y = false) :
    ∀ x y, y0 < y → m'.f x y = false := by
  obtain ⟨m1, h1, h2⟩ := Grid.processRow_inv h
  have hm1 := foldlM_some_ind (g.stepF j)
    (fun mm => ∀ x y, y0 < y → mm.f x y = false) _ m m1
    (fun a _ mx my hmx hf => Grid.stepF_below hf hmx) hm h1
  exact foldlM_some_ind (g.stepB j)
    (fun mm => ∀ x y, y0 < y → mm.f x y = false) _ m1 m'
    (fun a _ mx my hmx hf => Grid.stepB_below hf hmx) hm1 h2

/-- Inverting Grid.process_vis into its three phases. -/
theorem Grid.process_vis_inv {g : Grid} {p : Nat × Nat} {m : Mask} {g' : Grid}
    (h : g.process_vis p = some (m, g')) :
    ∃ m0, (Mask.zeros g.width g.height).set? p.1 p.2 true = some m0 ∧
      (List.range g.height).reverse.foldlM g.processRow m0 = some m ∧
      Grid.prune m g = some g' := by
  unfold Grid.process_vis at h
  cases h0 : (Mask.zeros g.width g.height).set? p.1 p.2 true with
  | none => rw [h0] at h; cases h
  | some m0 =>
      rw [h0] at h
      have h1 : (do
          let mm ← (List.range g.height).reverse.foldlM g.processRow m0
          let gg ← Grid.prune mm g
          pure (mm, gg) : Option (Mask × Grid)) = some (m, g') := h
      cases h2 : (List.range g.height).reverse.foldlM g.processRow m0 with
      | none => rw [h2] at h1; cases h1
      | some mm =>
          rw [h2] at h1
          have h3 : (do
              let gg ← Grid.prune mm g
              pure (mm, gg) : Option (Mask × Grid)) = some (m, g') := h1
          cases h4 : Grid.prune mm g with
          | none => rw [h4] at h3; cases h3
          | some gg =>
              rw [h4] at h3
              have h5 : (some (mm, gg) : Option (Mask × Grid)) = some (m, g') := h3
              have h6 := Option.some.inj h5
              injection h6 with hA hB
              subst hA
              subst hB
              exact ⟨m0, rfl, h2, h4⟩

/- ### Totality: inside the grid every access of the sweep is in bounds -/

theorem Mask.set?_total {m : Mask} {i j : Nat} (b : Bool) (hi : i < m.w) (hj : j < m.h) :
    ∃ m', m.set? i j b = some m' ∧ m'.w = m.w ∧ m'.h = m.h :=
  ⟨_, Mask.set?_eq b hi hj, rfl, rfl⟩

theorem Mask.propF_isSome {m : Mask} {i j : Nat}
    (hi : i + 1 < m.w) (hj : j < m.h) : (m.propF i j).isSome := by
  obtain ⟨m1, h1, hw1, hh1⟩ := Mask.set?_total true hi hj
  unfold Mask.propF
  rw [h1]
  show (if 0 < j then (do
      let m2 ← m1.set? (i + 1) (j - 1) true
      m2.set? i (j - 1) true)
    else pure m1).isSome
  by_cases hjp : 0 < j
  · rw [if_pos hjp]
    obtain ⟨m2, h2, hw2, hh2⟩ := Mask.set?_total (m := m1) (i := i + 1) (j := j - 1) true
      (by omega) (by omega)
    rw [h2]
    show (m2.set? i (j - 1) true).isSome
    obtain ⟨m3, h3, _, _⟩ := Mask.set?_total (m := m2) (i := i) (j := j - 1) true
      (by omega) (by omega)
    rw [h3]; rfl
  · rw [if_neg hjp]; rfl

theorem Mask.propB_isSome {m : Mask} {i j : Nat}
    (hi : i < m.w) (hj : j < m.h) : (m.propB i j).isSome := by
  obtain ⟨m1, h1, hw1, hh1⟩ := Mask.set?_total (m := m) (i := i - 1) (j := j) true
    (by omega) hj
  unfold Mask.propB
  rw [h1]
  show (if 0 < j then (do
      let m2 ← m1.set? (i - 1) (j - 1) true
      m2.set? i (j - 1) true)
    else pure m1).isSome
  by_cases hjp : 0 < j
  · rw [if_pos hjp]
    obtain ⟨m2, h2, hw2, hh2⟩ := Mask.set?_total (m := m1) (i := i - 1) (j := j - 1) true
      (by omega) (by omega)
    rw [h2]
    show (m2.set? i (j - 1) true).isSome
    obtain ⟨m3, h3, _, _⟩ := Mask.set?_total (m := m2) (i := i) (j := j - 1) true
      (by omega) (by omega)
    rw [h3]; rfl
  · rw [if_neg hjp]; rfl

theorem Grid.stepF_isSome {g : Grid} {j i : Nat} {m : Mask}
    (hmw : m.w = g.width) (hmh : m.h = g.height)
    (hi : i + 1 < g.width) (hj : j < g.height) : (g.stepF j m i).isSome := by
  unfold Grid.stepF
  rw [Mask.get?_eq (by omega) (by omega)]
  show (if m.f i j = false then pure m else (do
      let cell ← g.get? i j
      match cell with
      | some o => if o.see_behind = false then pure m else m.propF i j
      | none => m.propF i j)).isSome
  by_cases hb : m.f i j = false
  · rw [if_pos hb]; rfl
  · rw [if_neg hb]
    rw [Grid.get?_some (by omega) hj]
    show (match g.get i j with
      | some o => if o.see_behind = false then pure m else m.propF i j
      | none => m.propF i j).isSome
    cases hc : g.get i j with
    | none => exact Mask.propF_isSome (by omega) (by omega)
    | some o =>
        show (if o.see_behind = false then pure m else m.propF i j).isSome
        by_cases hsb : o.see_behind = false
        · rw [if_pos hsb]; rfl
        · rw [if_neg hsb]; exact Mask.propF_isSome (by omega) (by omega)

theorem Grid.stepB_isSome {g : Grid} {j i : Nat} {m : Mask}
    (hmw : m.w = g.width) (hmh : m.h = g.height)
    (hi : i < g.width) (hj : j < g.height) : (g.stepB j m i).isSome := by
  unfold Grid.stepB
  rw [Mask.get?_eq (by omega) (by omega)]
  show (if m.f i j = false then pure m else (do
      let cell ← g.get? i j
      match cell with
      | some o => if o.see_behind = false then pure m else m.propB i j
      | none => m.propB i j)).isSome
  by_cases hb : m.f i j = false
  · rw [if_pos hb]; rfl
  · rw [if_neg hb]
    rw [Grid.get?_some (by omega) hj]
    show (match g.get i j with
      | some o => if o.see_behind = false then pure m else m.propB i j
      | none => m.propB i j).isSome
    cases hc : g.get i j with
    | none => exact Mask.propB_isSome (by omega) (by omega)
    | some o =>
        show (if o.see_behind = false then pure m else m.propB i j).isSome
        by_cases hsb : o.see_behind = false
        · rw [if_pos hsb]; rfl
        · rw [if_neg hsb]; exact Mask.propB_isSome (by omega) (by omega)

theorem Grid.stepF_dims {g : Grid} {j i : Nat} {m m' : Mask}
    (h : g.stepF j m i = some m') : m'.w = m.w ∧ m'.h = m.h := by
  rcases Grid.stepF_inv h with rfl | ⟨_, hp⟩
  · exact ⟨rfl, rfl⟩
  · exact ⟨(Mask.propF_char hp).1, (Mask.propF_char hp).2.1⟩

theorem Grid.stepB_dims {g : Grid} {j i : Nat} {m m' : Mask}
    (h : g.stepB j m i = some m') : m'.w = m.w ∧ m'.h = m.h := by
  rcases Grid.stepB_inv h with rfl | ⟨_, hp⟩
  · exact ⟨rfl, rfl⟩
  · exact ⟨(Mask.propB_char hp).1, (Mask.propB_char hp).2.1⟩

theorem Grid.processRow_total {g : Grid} {m : Mask} {j : Nat}
    (hmw : m.w = g.width) (hmh : m.h = g.height) (hj : j < g.height) :
    ∃ m', g.processRow m j = some m' ∧ m'.w = g.width ∧ m'.h = g.height := by
  have hfwd := foldlM_total (g.stepF j)
    (fun mm => mm.w = g.width ∧ mm.h = g.height)
    (List.range (g.width - 1)) m
    (fun a ha mm hmm => by
      have hi : a < g.width - 1 := List.mem_range.mp ha
      obtain ⟨m2, hm2⟩ := Option.isSome_iff_exists.mp
        (Grid.stepF_isSome (g := g) (j := j) (i := a) (m := mm) hmm.1 hmm.2 (by omega) hj)
      have hd := Grid.stepF_dims hm2
      exact ⟨m2, hm2, by omega, by omega⟩)
    ⟨hmw, hmh⟩
  obtain ⟨m1, hm1, hm1w, hm1h⟩ := hfwd
  have hbwd := foldlM_total (g.stepB j)
    (fun mm => mm.w = g.width ∧ mm.h = g.height)
    (List.range' 1 (g.width - 1)).reverse m1
    (fun a ha mm hmm => by
      have ha' := List.mem_reverse.mp ha
      have hi : 1 ≤ a ∧ a < 1 + (g.width - 1) := List.mem_range'_1.mp ha'
      obtain ⟨m2, hm2⟩ := Option.isSome_iff_exists.mp
        (Grid.stepB_isSome (g := g) (j := j) (i := a) (m := mm) hmm.1 hmm.2 (by omega) hj)
      have hd := Grid.stepB_dims hm2
      exact ⟨m2, hm2, by omega, by omega⟩)
    ⟨hm1w, hm1h⟩
  obtain ⟨m', hm', hw', hh'⟩ := hbwd
  refine ⟨m', ?_, hw', hh'⟩
  unfold Grid.processRow
  rw [hm1]
  exact hm'

theorem Grid.processRow_dims {g : Grid} {m m' : Mask} {j : Nat}
    (h : g.processRow m j = some m') : m'.w = m.w ∧ m'.h = m.h := by
  obtain ⟨m1, h1, h2⟩ := Grid.processRow_inv h
  have d1 := foldlM_some_ind (g.stepF j)
    (fun mm => mm.w = m.w ∧ mm.h = m.h) _ m m1
    (fun a _ mx my hmx hf => by
      have := Grid.stepF_dims hf; exact ⟨by omega, by omega⟩)
    ⟨rfl, rfl⟩ h1
  exact foldlM_some_ind (g.stepB j)
    (fun mm => mm.w = m.w ∧ mm.h = m.h) _ m1 m'
    (fun a _ mx my hmx hf => by
      have := Grid.stepB_dims hf; exact ⟨by omega, by omega⟩)
    d1 h2

theorem Grid.pruneCell_isSome {g : Grid} {m : Mask} {i j : Nat}
    (hmw : m.w = g.width) (hmh : m.h = g.height)
    (hi : i < g.width) (hj : j < g.height) : (Grid.pruneCell m g i j).isSome := by
  unfold Grid.pruneCell
  rw [Mask.get?_eq (by omega) (by omega)]
  show (if m.f i j = false then g.set? i j none else pure g).isSome
  by_cases hb : m.f i j = false
  · rw [if_pos hb, Grid.set?_some none hi hj]; rfl
  · rw [if_neg hb]; rfl

theorem Grid.pruneCell_dims {g g2 : Grid} {m : Mask} {i j : Nat}
    (h : Grid.pruneCell m g i j = some g2) :
    g2.width = g.width ∧ g2.height = g.height := by
  unfold Grid.pruneCell at h
  cases hb : m.get? i j with
  | none => rw [hb] at h; cases h
  | some b =>
      rw [hb] at h
      have h2 : (if b = false then g.set? i j none else pure g) = some g2 := h
      by_cases hbf : b = false
      · rw [if_pos hbf] at h2
        unfold Grid.set? at h2
        split at h2
        · cases h2; exact ⟨rfl, rfl⟩
        · cases h2
      · rw [if_neg hbf] at h2; cases h2; exact ⟨rfl, rfl⟩

theorem Grid.prune_total {g : Grid} {m : Mask}
    (hmw : m.w = g.width) (hmh : m.h = g.height) :
    ∃ g', Grid.prune m g = some g' := by
  have hall := foldlM_total
    (fun g2 j => (List.range g.width).foldlM (fun g3 i => Grid.pruneCell m g3 i j) g2)
    (fun g2 => g2.width = g.width ∧ g2.height = g.height)
    (List.range g.height) g
    (fun j hj g2 hg2 => by
      have hj' : j < g.height := List.mem_range.mp hj
      have hrow := foldlM_total
        (fun g3 i => Grid.pruneCell m g3 i j)
        (fun g3 => g3.width = g.width ∧ g3.height = g.height)
        (List.range g.width) g2
        (fun i hi g3 hg3 => by
          have hi' : i < g.width := List.mem_range.mp hi
          obtain ⟨g4, hg4⟩ := Option.isSome_iff_exists.mp
            (Grid.pruneCell_isSome (g := g3) (m := m) (i := i) (j := j)
              (by omega) (by omega) (by omega) (by omega))
          have hd := Grid.pruneCell_dims hg4
          exact ⟨g4, hg4, by omega, by omega⟩)
        hg2
      obtain ⟨g5, hg5, hd5⟩ := hrow
      exact ⟨g5, hg5, hd5⟩)
    ⟨rfl, rfl⟩
  obtain ⟨g', hg', _⟩ := hall
  exact ⟨g', hg'⟩

theorem Grid.process_vis_total (g : Grid) (p : Nat × Nat)
    (hx : p.1 < g.width) (hy : p.2 < g.height) :
    ∃ r, g.process_vis p = some r := by
  obtain ⟨m0, h0, hw0, hh0⟩ := Mask.set?_total (m := Mask.zeros g.width g.height)
    (i := p.1) (j := p.2) true hx hy
  have hrows := foldlM_total g.processRow
    (fun mm => mm.w = g.width ∧ mm.h = g.height)
    (List.range g.height).reverse m0
    (fun j hj mm hmm => by
      have hj' : j < g.height := List.mem_range.mp (List.mem_reverse.mp hj)
      exact Grid.processRow_total (g := g) (m := mm) (j := j) hmm.1 hmm.2 hj')
    ⟨hw0, hh0⟩
  obtain ⟨m, hm, hmw, hmh⟩ := hrows
  obtain ⟨g', hg'⟩ := Grid.prune_total (g := g) (m := m) hmw hmh
  refine ⟨(m, g'), ?_⟩
  unfold Grid.process_vis
  rw [h0]
  show (do
      let mm ← (List.range g.height).reverse.foldlM g.processRow m0
      let gg ← Grid.prune mm g
      pure (mm, gg) : Option (Mask × Grid)) = some (m, g')
  rw [hm]
  show (do
      let gg ← Grid.prune m g
      pure (m, gg) : Option (Mask × Grid)) = some (m, g')
  rw [hg']
  rfl

/-- C9: for every grid satisfying the construction invariant and every
in-bounds observer position, every mask index and every `grid.get`/`grid.set`
access performed by `process_vis` is within bounds: the checked embedding of
the sweep and pruning phases never fails, i.e. `process_vis` returns a
result. -/
theorem C9_process_vis_in_bounds (g : Grid) (p : Nat × Nat)
    (hw : 3 ≤ g.width) (hh : 3 ≤ g.height)
    (hx : p.1 < g.width) (hy : p.2 < g.height) :
    ∃ r, g.process_vis p = some r :=
  Grid.process_vis_total g p hx hy

theorem C9_witness : ∃ r, (Grid.mk0 5 5).process_vis (2, 3) = some r :=
  C9_process_vis_in_bounds (Grid.mk0 5 5) (2, 3)
    (by decide) (by decide) (by decide) (by decide)

/-- C7: the returned mask is false at every cell strictly below the
observer's row: the seed is the only initially-true entry and every sweep
step writes only into its own row or the row one closer to `y = 0`, so rows
with `y > observer.y` are swept but never acquire a true entry. -/
theorem C7_rows_below_observer_false (g : Grid) (p : Nat × Nat) (m : Mask) (g' : Grid)
    (h : g.process_vis p = some (m, g')) :
    ∀ x y, p.2 < y → m.f x y = false := by
  obtain ⟨m0, h0, h1, _⟩ := Grid.process_vis_inv h
  have hm0 : ∀ x y, p.2 < y → m0.f x y = false := by
    intro x y hy
    rw [Mask.set?_f h0 x y]
    rw [if_neg (fun hc => absurd hc.2 (by omega))]
    rfl
  exact foldlM_some_ind g.processRow (fun mm => ∀ x y, p.2 < y → mm.f x y = false)
    _ m0 m (fun a _ mx my hmx hf => Grid.processRow_below hf hmx) hm0 h1

theorem C7_witness :
    ((Grid.mk0 5 5).process_vis (2, 3)).map (fun r => r.1.f 2 4) = some false := by
  cases hh : (Grid.mk0 5 5).process_vis (2, 3) with
  | none =>
      have hs : ((Grid.mk0 5 5).process_vis (2, 3)).isSome = true := by decide
      rw [hh] at hs
      cases hs
  | some r =>
      have hr : (Grid.mk0 5 5).process_vis (2, 3) = some (r.1, r.2) := by rw [hh]
      have := C7_rows_below_observer_false (Grid.mk0 5 5) (2, 3) r.1 r.2 hr 2 4
        (by decide)
      simp [this]

/- ### Claim C1: an occupied cell that blocks sight is seen but not seen through -/

theorem Grid.stepF_blocked {g : Grid} {m : Mask} {i j : Nat} {o : WorldObj}
    (him : i < m.w) (hjm : j < m.h) (ho : g.get? i j = some (some o))
    (hsb : o.see_behind = false) : g.stepF j m i = some m := by
  unfold Grid.stepF
  rw [Mask.get?_eq him hjm]
  show (if m.f i j = false then pure m else (do
      let cell ← g.get? i j
      match cell with
      | some o => if o.see_behind = false then pure m else m.propF i j
      | none => m.propF i j)) = some m
  by_cases hb : m.f i j = false
  · rw [if_pos hb]; rfl
  · rw [if_neg hb, ho]
    show (if o.see_behind = false then pure m else m.propF i j) = some m
    rw [if_pos hsb]; rfl

theorem Grid.stepB_blocked {g : Grid} {m : Mask} {i j : Nat} {o : WorldObj}
    (him : i < m.w) (hjm : j < m.h) (ho : g.get? i j = some (some o))
    (hsb : o.see_behind = false) : g.stepB j m i = some m := by
  unfold Grid.stepB
  rw [Mask.get?_eq him hjm]
  show (if m.f i j = false then pure m else (do
      let cell ← g.get? i j
      match cell with
      | some o => if o.see_behind = false then pure m else m.propB i j
      | none => m.propB i j)) = some m
  by_cases hb : m.f i j = false
  · rw [if_pos hb]; rfl
  · rw [if_neg hb, ho]
    show (if o.see_behind = false then pure m else m.propB i j) = some m
    rw [if_pos hsb]; rfl

/-- A concrete object that blocks sight, standing in for a wall from the
external object catalogue. -/
def wallObj : WorldObj := ⟨2, 5, false, [2, 5, 0]⟩

/-- A 5x5 grid holding a single sight-blocking object directly above the
observer position (2, 4) used in the concrete part of claim C1. -/
def WG5 : Grid := (Grid.mk0 5 5).set 2 3 (some wallObj)

/-- A concrete mask with rows 3 and 4 marked, matching the sweep state of
`WG5` when row 3 is being processed. -/
def M1 : Mask := ⟨5, 5, fun _ y => decide (y = 3 ∨ y = 4)⟩

/-- C1: a sweep step standing on a cell holding an object that does not see
behind leaves the mask exactly as it is (visibility never propagates out of
that cell, in either pass), while no sweep step ever erases a mark — so a
blocking cell that was marked visible stays visible in the final mask.  On
the concrete 5x5 grid with one blocking object at (2,3) and the observer at
(2,4), the blocking cell itself is marked, and the adjacent columns still
receive their diagonal marks per the sweep rule. -/
theorem C1_blocking_cell_seen_not_seen_through :
    (∀ (g : Grid) (m : Mask) (i j : Nat) (o : WorldObj),
      i < m.w → j < m.h → g.get? i j = some (some o) → o.see_behind = false →
      g.stepF j m i = some m ∧ g.stepB j m i = some m)
    ∧ (∀ (g : Grid) (j i x y : Nat) (m m' : Mask),
      g.stepF j m i = some m' → m.f x y = true → m'.f x y = true)
    ∧ (∀ (g : Grid) (j i x y : Nat) (m m' : Mask),
      g.stepB j m i = some m' → m.f x y = true → m'.f x y = true)
    ∧ (∀ (g : Grid) (j x y : Nat) (m m' : Mask),
      g.processRow m j = some m' → m.f x y = true → m'.f x y = true)
    ∧ ((WG5.process_vis (2, 4)).map
        (fun r => (r.1.f 2 3, r.1.f 1 3, r.1.f 3 3, r.1.f 1 2, r.1.f 3 2)) =
        some (true, true, true, true, true)) := by
  refine ⟨?_, ?_, ?_, ?_, ?_⟩
  · intro g m i j o him hjm ho hsb
    exact ⟨Grid.stepF_blocked him hjm ho hsb, Grid.stepB_blocked him hjm ho hsb⟩
  · intro g j i x y m m' h hxy
    exact Grid.stepF_mono h hxy
  · intro g j i x y m m' h hxy
    exact Grid.stepB_mono h hxy
  · intro g j x y m m' h hxy
    exact Grid.processRow_mono h hxy
  · decide

theorem C1_witness : WG5.stepF 3 M1 2 = some M1 ∧ WG5.stepB 3 M1 2 = some M1 :=
  C1_blocking_cell_seen_not_seen_through.1 WG5 M1 2 3 wallObj
    (by decide) (by decide) (by decide) (by decide)

/- ### Claim C2: the pruning phase clears exactly the invisible cells -/

theorem Grid.pruneCell_char {g g2 : Grid} {m : Mask} {i j : Nat}
    (h : Grid.pruneCell m g i j = some g2)
    (hlen : g.cells.length = g.width * g.height)
    (hi : i < g.width) (hj : j < g.height) :
    g2.width = g.width ∧ g2.height = g.height ∧ g2.cells.length = g.cells.length ∧
    ∀ x y, x < g.width →
      g2.get x y = if x = i ∧ y = j ∧ m.f i j = false then none else g.get x y := by
  unfold Grid.pruneCell at h
  cases hb : m.get? i j with
  | none => rw [hb] at h; cases h
  | some b =>
      rw [hb] at h
      have hbv : b = m.f i j := by
        unfold Mask.get? at hb
        split at hb
        · cases hb; rfl
        · cases hb
      have h2 : (if b = false then g.set? i j none else pure g) = some g2 := h
      by_cases hbf : b = false
      · rw [if_pos hbf] at h2
        rw [Grid.set?_some none hi hj] at h2
        cases h2
        refine ⟨rfl, rfl, by simp, ?_⟩
        intro x y hx
        by_cases hc : x = i ∧ y = j
        · rw [if_pos ⟨hc.1, hc.2, hbv ▸ hbf⟩]
          rcases hc with ⟨rfl, rfl⟩
          exact Grid.get_set_self none hlen hi hj
        · rw [if_neg (fun hcc => hc ⟨hcc.1, hcc.2.1⟩)]
          exact Grid.get_set_of_ne none hi hx hc
      · rw [if_neg hbf] at h2
        cases h2
        refine ⟨rfl, rfl, rfl, ?_⟩
        intro x y _
        rw [if_neg (fun hcc => hbf (hbv.trans hcc.2.2))]

theorem Grid.pruneRow_char {m : Mask} {j : Nat} :
    ∀ (L : List Nat) (g g2 : Grid),
    L.foldlM (fun g3 i => Grid.pruneCell m g3 i j) g = some g2 →
    g.cells.length = g.width * g.height →
    (∀ a ∈ L, a < g.width) → j < g.height →
    g2.width = g.width ∧ g2.height = g.height ∧ g2.cells.length = g.cells.length ∧
    ∀ x y, x < g.width →
      g2.get x y = if x ∈ L ∧ y = j ∧ m.f x y = false then none else g.get x y := by
  intro L
  induction L with
  | nil =>
      intro g g2 h _ _ _
      have h' : (some g : Option Grid) = some g2 := h
      cases h'
      refine ⟨rfl, rfl, rfl, ?_⟩
      intro x y _
      rw [if_neg (fun hcc => by cases hcc.1)]
  | cons a t ih =>
      intro g g2 h hlen hmem hj
      rw [List.foldlM_cons] at h
      cases h1 : Grid.pruneCell m g a j with
      | none => rw [h1] at h; cases h
      | some g1 =>
          rw [h1] at h
          have hc1 := Grid.pruneCell_char h1 hlen (hmem a (List.mem_cons_self a t)) hj
          obtain ⟨hw1, hh1, hl1, hget1⟩ := hc1
          have hlen1 : g1.cells.length = g1.width * g1.height := by
            rw [hw1, hh1, hl1, hlen]
          have hmem1 : ∀ b ∈ t, b < g1.width := by
            intro b hb; rw [hw1]; exact hmem b (List.mem_cons_of_mem a hb)
          have hj1 : j < g1.height := by rw [hh1]; exact hj
          have hrec := ih g1 g2 h hlen1 hmem1 hj1
          obtain ⟨hw2, hh2, hl2, hget2⟩ := hrec
          refine ⟨by omega, by omega, by omega, ?_⟩
          intro x y hx
          have hx1 : x < g1.width := by omega
          rw [hget2 x y hx1]
          by_cases ct : x ∈ t ∧ y = j ∧ m.f x y = false
          · rw [if_pos ct, if_pos ⟨List.mem_cons_of_mem a ct.1, ct.2.1, ct.2.2⟩]
          · rw [if_neg ct, hget1 x y hx]
            by_cases ca : x = a ∧ y = j ∧ m.f a j = false
            · have hmf : m.f x y = false := by
                rcases ca with ⟨rfl, rfl, hf⟩; exact hf
              rw [if_pos ca, if_pos ⟨by rw [ca.1]; exact List.mem_cons_self a t, ca.2.1, hmf⟩]
            · rw [if_neg ca]
              rw [if_neg (fun hcc => by
                rcases hcc with ⟨hmem', hyj, hmf⟩
                rcases List.mem_cons.mp hmem' with rfl | hmt
                · exact ca ⟨rfl, hyj, hyj ▸ hmf⟩
                · exact ct ⟨hmt, hyj, hmf⟩)]

theorem Grid.pruneRows_char {m : Mask} {W H : Nat} :
    ∀ (LJ : List Nat) (g g2 : Grid),
    LJ.foldlM (fun gg j => (List.range W).foldlM
      (fun g3 i => Grid.pruneCell m g3 i j) gg) g = some g2 →
    g.width = W → g.height = H → g.cells.length = W * H →
    (∀ j ∈ LJ, j < H) →
    g2.width = W ∧ g2.height = H ∧ g2.cells.length = W * H ∧
    ∀ x y, x < W →
      g2.get x y = if y ∈ LJ ∧ m.f x y = false then none else g.get x y := by
  intro LJ
  induction LJ with
  | nil =>
      intro g g2 h hgw hgh hglen _
      have h' : (some g : Option Grid) = some g2 := h
      cases h'
      refine ⟨hgw, hgh, by omega, ?_⟩
      intro x y _
      rw [if_neg (fun hcc => by cases hcc.1)]
  | cons b t ih =>
      intro g g2 h hgw hgh hglen hmem
      rw [List.foldlM_cons] at h
      cases h1 : (List.range W).foldlM (fun g3 i => Grid.pruneCell m g3 i b) g with
      | none => rw [h1] at h; cases h
      | some g1 =>
          rw [h1] at h
          have hrowmem : ∀ a ∈ List.range W, a < g.width := by
            intro a ha; rw [hgw]; exact List.mem_range.mp ha
          have hb : b < g.height := by
            rw [hgh]; exact hmem b (List.mem_cons_self b t)
          have hrow := Grid.pruneRow_char (List.range W) g g1 h1
            (by rw [hgw, hgh]; exact hglen) hrowmem hb
          obtain ⟨hw1, hh1, hl1, hget1⟩ := hrow
          have hrec := ih g1 g2 h (by omega) (by omega) (by omega)
            (fun j hj => hmem j (List.mem_cons_of_mem b hj))
          obtain ⟨hw2, hh2, hl2, hget2⟩ := hrec
          refine ⟨hw2, hh2, hl2, ?_⟩
          intro x y hx
          rw [hget2 x y hx]
          by_cases ct : y ∈ t ∧ m.f x y = false
          · rw [if_pos ct, if_pos ⟨List.mem_cons_of_mem b ct.1, ct.2⟩]
          · rw [if_neg ct, hget1 x y (by omega)]
            by_cases ca : x ∈ List.range W ∧ y = b ∧ m.f x y = false
            · rw [if_pos ca, if_pos ⟨by rw [ca.2.1]; exact List.mem_cons_self b t, ca.2.2⟩]
            · rw [if_neg ca]
              rw [if_neg (fun hcc => by
                rcases hcc with ⟨hmem', hmf⟩
                rcases List.mem_cons.mp hmem' with rfl | hmt
                · exact ca ⟨List.mem_range.mpr hx, rfl, hmf⟩
                · exact ct ⟨hmt, hmf⟩)]

theorem Grid.prune_char {m : Mask} {g g' : Grid}
    (h : Grid.prune m g = some g')
    (hlen : g.cells.length = g.width * g.height) :
    g'.width = g.width ∧ g'.height = g.height ∧
    g'.cells.length = g.width * g.height ∧
    ∀ x y, x < g.width → y < g.height →
      g'.get x y = if m.f x y = false then none else g.get x y := by
  unfold Grid.prune at h
  have hc := Grid.pruneRows_char (W := g.width) (H := g.height)
    (List.range g.height) g g' h rfl rfl hlen
    (fun j hj => List.mem_range.mp hj)
  obtain ⟨hw, hh, hl, hget⟩ := hc
  refine ⟨hw, hh, hl, ?_⟩
  intro x y hx hy
  rw [hget x y hx]
  by_cases hf : m.f x y = false
  · rw [if_pos ⟨List.mem_range.mpr hy, hf⟩, if_pos hf]
  · rw [if_neg (fun hcc => hf hcc.2), if_neg hf]

/-- C2: after `process_vis` returns, the input grid has been pruned in
place: every cell whose mask entry is false now holds `None`, and every cell
whose mask entry is true holds exactly the object it held before the call. -/
theorem C2_process_vis_prunes_invisible (g : Grid) (p : Nat × Nat) (m : Mask) (g' : Grid)
    (hlen : g.cells.length = g.width * g.height)
    (h : g.process_vis p = some (m, g')) :
    g'.width = g.width ∧ g'.height = g.height ∧
    ∀ x y, x < g.width → y < g.height →
      (m.f x y = false → g'.get x y = none) ∧
      (m.f x y = true → g'.get x y = g.get x y) := by
  obtain ⟨m0, _, _, hprune⟩ := Grid.process_vis_inv h
  obtain ⟨hw, hh, _, hget⟩ := Grid.prune_char hprune hlen
  refine ⟨hw, hh, ?_⟩
  intro x y hx hy
  constructor
  · intro hf
    rw [hget x y hx hy, if_pos hf]
  · intro ht
    rw [hget x y hx hy, if_neg (by rw [ht]; exact fun hc => by cases hc)]

/-- A 5x5 grid with objects at (0, 4) (below the observer row, hence pruned)
and at (2, 2) (visible, hence kept), observer at (2, 3). -/
def GC2 : Grid := ((Grid.mk0 5 5).set 0 4 (some wallObj)).set 2 2 (some wallObj)

theorem C2_witness :
    (GC2.process_vis (2, 3)).map (fun r => (r.2.get 0 4, r.2.get 2 2)) =
      some (none, some wallObj) := by
  cases hh : GC2.process_vis (2, 3) with
  | none =>
      have hs : (GC2.process_vis (2, 3)).isSome = true := by decide
      rw [hh] at hs
      cases hs
  | some r =>
      have hr : GC2.process_vis (2, 3) = some (r.1, r.2) := by rw [hh]
      have hc := C2_process_vis_prunes_invisible GC2 (2, 3) r.1 r.2 (by decide) hr
      have hf04 : r.1.f 0 4 = false := by
        have : (GC2.process_vis (2, 3)).map (fun rr => rr.1.f 0 4) = some false := by decide
        rw [hh] at this
        exact Option.some.inj this
      have hf22 : r.1.f 2 2 = true := by
        have : (GC2.process_vis (2, 3)).map (fun rr => rr.1.f 2 2) = some true := by decide
        rw [hh] at this
        exact Option.some.inj this
      have h04 := (hc.2.2 0 4 (by decide) (by decide)).1 hf04
      have h22 := (hc.2.2 2 2 (by decide) (by decide)).2 hf22
      have h22v : GC2.get 2 2 = some wallObj := by decide
      simp [h04, h22, h22v]

/- ### The encoder (Grid.encode) -/

/-- The row written for a visible empty cell of the encoding: channel 0 gets
the "empty" sentinel, channels 1 and 2 get zero, and when `encode_dim > 3`
channels 3-5 also get zero, all over the zero-initialized row. -/
def encodeCellEmpty (world : World) : List Nat :=
  let row0 := List.replicate world.encode_dim 0
  let row1 := ((row0.set 0 world.emptyIdx).set 1 0).set 2 0
  if 3 < world.encode_dim then ((row1.set 3 0).set 4 0).set 5 0 else row1

/-- Grid.encode: a `width × height × encode_dim` array of small naturals,
initialized to zeros; a cell is filled only when its visibility entry holds —
with the sentinel row if empty, with the object's own `encode` output
verbatim if occupied. -/
def Grid.encode (g : Grid) (world : World) (vis : Nat → Nat → Bool) :
    List (List (List Nat)) :=
  (List.range g.width).map (fun i => (List.range g.height).map (fun j =>
    if vis i j then
      match g.get i j with
      | none => encodeCellEmpty world
      | some v => v.enc
    else List.replicate world.encode_dim 0))

/-- The all-true visibility mask `np.ones((width, height), bool)` that
`encode` builds when `vis_mask` is `None`. -/
def allVis : Nat → Nat → Bool := fun _ _ => true

theorem set_replicate_zero (n k : Nat) :
    (List.replicate n (0 : Nat)).set k 0 = List.replicate n 0 := by
  induction n generalizing k with
  | zero => rfl
  | succ n ih =>
      cases k with
      | zero => simp [List.replicate_succ]
      | succ k => simp [List.replicate_succ, ih]

theorem encodeCellEmpty_eq (world : World) (hD : 1 ≤ world.encode_dim) :
    encodeCellEmpty world = world.emptyIdx :: List.replicate (world.encode_dim - 1) 0 := by
  obtain ⟨d, hdd⟩ : ∃ d, world.encode_dim = d + 1 := ⟨world.encode_dim - 1, by omega⟩
  unfold encodeCellEmpty
  rw [hdd]
  show ((((List.replicate (d + 1) 0).set 0 world.emptyIdx).set 1 0).set 2 0 |>
      fun row1 => if 3 < d + 1 then ((row1.set 3 0).set 4 0).set 5 0 else row1) =
    world.emptyIdx :: List.replicate (d + 1 - 1) 0
  have hrow : (((List.replicate (d + 1) 0).set 0 world.emptyIdx).set 1 0).set 2 0 =
      world.emptyIdx :: List.replicate d 0 := by
    rw [List.replicate_succ]
    show (((0 :: List.replicate d 0).set 0 world.emptyIdx).set 1 0).set 2 0 =
      world.emptyIdx :: List.replicate d 0
    simp [set_replicate_zero]
  show (if 3 < d + 1 then
      (((((List.replicate (d + 1) 0).set 0 world.emptyIdx).set 1 0).set 2 0).set 3 0 |>
        fun r => (r.set 4 0).set 5 0)
    else (((List.replicate (d + 1) 0).set 0 world.emptyIdx).set 1 0).set 2 0) =
    world.emptyIdx :: List.replicate (d + 1 - 1) 0
  rw [hrow]
  by_cases h3 : 3 < d + 1
  · rw [if_pos h3]
    show ((((world.emptyIdx :: List.replicate d 0).set 3 0).set 4 0).set 5 0) =
      world.emptyIdx :: List.replicate (d + 1 - 1) 0
    simp [set_replicate_zero]
  · rw [if_neg h3]
    simp

theorem Grid.encode_at (g : Grid) (world : World) (vis : Nat → Nat → Bool)
    {i j : Nat} (hi : i < g.width) (hj : j < g.height) :
    ((g.encode world vis).getD i []).getD j [] =
      (if vis i j then
        match g.get i j with
        | none => encodeCellEmpty world
        | some v => v.enc
      else List.replicate world.encode_dim 0) := by
  have h1 : (g.encode world vis).getD i [] = (List.range g.height).map (fun j =>
      if vis i j then
        match g.get i j with
        | none => encodeCellEmpty world
        | some v => v.enc
      else List.replicate world.encode_dim 0) := by
    unfold Grid.encode
    rw [List.getD_eq_getElem?_getD, List.getElem?_map, List.getElem?_range hi]
    rfl
  rw [h1, List.getD_eq_getElem?_getD, List.getElem?_map, List.getElem?_range hj]
  rfl

/-- C6: in the array produced by `encode(world, vis_mask)`, an invisible
cell keeps all `encode_dim` channels at zero, a visible empty cell gets the
"empty" sentinel in channel 0 and zero in every other channel, a visible
occupied cell gets the object's own encoding verbatim; and the sentinel row
differs from the all-zero row whenever the "empty" sentinel index is
non-zero. -/
theorem C6_encode_channels (world : World) (g : Grid) (vis : Nat → Nat → Bool)
    (i j : Nat) (hD : 1 ≤ world.encode_dim) (hi : i < g.width) (hj : j < g.height) :
    (vis i j = false →
      ((g.encode world vis).getD i []).getD j [] = List.replicate world.encode_dim 0)
    ∧ (vis i j = true → g.get i j = none →
      ((g.encode world vis).getD i []).getD j [] =
        world.emptyIdx :: List.replicate (world.encode_dim - 1) 0)
    ∧ (∀ v, vis i j = true → g.get i j = some v →
      ((g.encode world vis).getD i []).getD j [] = v.enc)
    ∧ (world.emptyIdx ≠ 0 →
      world.emptyIdx :: List.replicate (world.encode_dim - 1) 0 ≠
        List.replicate world.encode_dim 0) := by
  refine ⟨?_, ?_, ?_, ?_⟩
  · intro hv
    rw [Grid.encode_at g world vis hi hj, if_neg (by rw [hv]; exact fun hc => by cases hc)]
  · intro hv he
    rw [Grid.encode_at g world vis hi hj, if_pos hv, he]
    exact encodeCellEmpty_eq world hD
  · intro v hv hs
    rw [Grid.encode_at g world vis hi hj, if_pos hv, hs]
  · intro hne heq
    obtain ⟨d, hdd⟩ : ∃ d, world.encode_dim = d + 1 := ⟨world.encode_dim - 1, by omega⟩
    rw [hdd, List.replicate_succ] at heq
    injection heq with h1 _
    exact hne h1

/-- A transparent sample object. -/
def objA : WorldObj := ⟨3, 1, true, [3, 1, 0]⟩

/-- Another transparent sample object. -/
def objB : WorldObj := ⟨4, 0, true, [4, 0, 2]⟩

/-- A sample world with 3 encoding channels and a non-zero empty sentinel. -/
def Wc : World := ⟨3, 1, wallObj, rfl⟩

/-- A sample visibility predicate hiding only cell (0, 0). -/
def visC : Nat → Nat → Bool := fun i j => !(i == 0 && j == 0)

/-- A 3x3 grid with one object at (1, 0). -/
def gC6 : Grid := (Grid.mk0 3 3).set 1 0 (some objA)

theorem C6_witness :
    ((gC6.encode Wc visC).getD 0 []).getD 0 [] = List.replicate Wc.encode_dim 0 ∧
    ((gC6.encode Wc visC).getD 1 []).getD 1 [] =
      Wc.emptyIdx :: List.replicate (Wc.encode_dim - 1) 0 ∧
    ((gC6.encode Wc visC).getD 1 []).getD 0 [] = objA.enc ∧
    Wc.emptyIdx :: List.replicate (Wc.encode_dim - 1) 0 ≠
      List.replicate Wc.encode_dim 0 :=
  ⟨(C6_encode_channels Wc gC6 visC 0 0 (by decide) (by decide) (by decide)).1 (by decide),
   (C6_encode_channels Wc gC6 visC 1 1 (by decide) (by decide) (by decide)).2.1
     (by decide) (by decide),
   (C6_encode_channels Wc gC6 visC 1 0 (by decide) (by decide) (by decide)).2.2.1
     objA (by decide) (by decide),
   (C6_encode_channels Wc gC6 visC 0 0 (by decide) (by decide) (by decide)).2.2.2
     (by decide)⟩

/- ### Claim C3: Grid.__eq__ -/

/-- Grid.__eq__ as written: its first statement is `grid1 = self.encode()`,
but `Grid.encode` requires the `world` argument, so every call raises
TypeError before any comparison happens; the embedded operation never
produces a Boolean. -/
def Grid.eqOp (g1 g2 : Grid) : Option Bool := none

/-- Modelled from the spec: the encoding-based grid equality that `__eq__`
was written to compute (`np.array_equal` of the two grids' world-frame
encodings, with the default all-visible mask); the code as written never
reaches this comparison because `encode` is called without `world`. -/
def Grid.eqEnc (world : World) (g1 g2 : Grid) : Bool :=
  decide (g1.encode world allVis = g2.encode world allVis)

/-- A 3x3 grid built by setting (0,0) first and (1,1) second. -/
def gA : Grid := ((Grid.mk0 3 3).set 0 0 (some objA)).set 1 1 (some objB)

/-- The same occupied cells as `gA`, set in the opposite order. -/
def gB : Grid := ((Grid.mk0 3 3).set 1 1 (some objB)).set 0 0 (some objA)

/-- C3 (the code evaluated at the failing input): comparing two grids with
identical occupied cells built by different sequences of `set` calls does
not return true — `__eq__` raises TypeError because it calls `encode`
without the required `world` argument — although the encoding comparison it
was written to perform would return true on this very input. -/
theorem C3_grid_eq_raises :
    Grid.eqOp gA gB = none ∧ Grid.eqEnc Wc gA gB = true :=
  ⟨rfl, by decide⟩

/- ### Claim C5: the render_tile cache key -/

/-- The render_tile cache key: `key = (*highlights, tile_size)`, prefixed by
the flattened `obj.encode(world)` tuple when the cell object is present; an
empty cell contributes no marker of its own to the key. -/
def renderTileKey (enc : Option (List Nat)) (highlights : List Nat)
    (tile_size : Nat) : List Nat :=
  match enc with
  | some e => e ++ (highlights ++ [tile_size])
  | none => highlights ++ [tile_size]

theorem concat_inj {hl1 hl2 : List Nat} {t1 t2 : Nat}
    (h : hl1 ++ [t1] = hl2 ++ [t2]) : hl1 = hl2 ∧ t1 = t2 := by
  have hr := congrArg List.reverse h
  simp only [List.reverse_append, List.reverse_cons, List.reverse_nil,
    List.nil_append, List.cons_append] at hr
  injection hr with h1 h2
  refine ⟨?_, h1⟩
  have := congrArg List.reverse h2
  simpa using this

/-- C5 counterexample: an occupied-cell call and an empty-cell call with
different (encoding-or-empty, highlights, tile size) triples build the very
same cache key, because an empty cell adds no sentinel to the key. -/
theorem C5_render_key_collision :
    renderTileKey (some [2, 1, 0]) [5] 32 = renderTileKey none [2, 1, 0, 5] 32 ∧
    ((some [2, 1, 0] : Option (List Nat)), ([5] : List Nat), (32 : Nat)) ≠
      ((none : Option (List Nat)), ([2, 1, 0, 5] : List Nat), (32 : Nat)) :=
  ⟨rfl, by decide⟩

/-- C5 (amended): the cache key is injective within each class of calls —
among occupied-cell calls whose encodings have equal length (as they do for
a fixed world's `encode_dim`), and among empty-cell calls — but an
occupied-cell call can collide with an empty-cell call. -/
theorem C5_render_key_injective_within_classes :
    (∀ (e1 e2 hl1 hl2 : List Nat) (t1 t2 : Nat), e1.length = e2.length →
      renderTileKey (some e1) hl1 t1 = renderTileKey (some e2) hl2 t2 →
      e1 = e2 ∧ hl1 = hl2 ∧ t1 = t2)
    ∧ (∀ (hl1 hl2 : List Nat) (t1 t2 : Nat),
      renderTileKey none hl1 t1 = renderTileKey none hl2 t2 →
      hl1 = hl2 ∧ t1 = t2) := by
  constructor
  · intro e1 e2 hl1 hl2 t1 t2 hlen h
    unfold renderTileKey at h
    obtain ⟨he, hrest⟩ := List.append_inj h hlen
    obtain ⟨hhl, ht⟩ := concat_inj hrest
    exact ⟨he, hhl, ht⟩
  · intro hl1 hl2 t1 t2 h
    unfold renderTileKey at h
    exact concat_inj h

theorem C5_witness :
    ([2, 1, 0] : List Nat) = [2, 1, 0] ∧ ([4] : List Nat) = [4] ∧ (7 : Nat) = 7 :=
  C5_render_key_injective_within_classes.1 [2, 1, 0] [2, 1, 0] [4] [4] 7 7 rfl rfl

/- ### Claim C4: wall_rect -/

/-- Grid.horz_wall: fill `length` consecutive cells starting at `(x, y)`
along increasing x (default length `width - x`) with the supplied object —
the value `obj_type(world)` that the Python code constructs for each cell. -/
def Grid.horz_wall (g : Grid) (x y : Nat) (length : Option Nat)
    (obj : WorldObj) : Option Grid :=
  (List.range (length.getD (g.width - x))).foldlM
    (fun acc i => acc.set? (x + i) y (some obj)) g

/-- Grid.vert_wall: the symmetric operation along y. -/
def Grid.vert_wall (g : Grid) (x y : Nat) (length : Option Nat)
    (obj : WorldObj) : Option Grid :=
  (List.range (length.getD (g.height - y))).foldlM
    (fun acc j => acc.set? x (y + j) (some obj)) g

/-- Grid.wall_rect exactly as the source calls it: `self.horz_wall(x, y, w)`
passes `x` into `horz_wall`'s `world` parameter, `y` into its `x`, `w` into
its `y`, and leaves `length = None` — the `world` parameter was added to the
wall helpers without updating `wall_rect`.  The external `Wall` factory
applied to whatever value lands in `world` is modelled by `wallOf`. -/
def Grid.wall_rect (g : Grid) (wallOf : Nat → WorldObj) (x y w h : Nat) :
    Option Grid := do
  let g1 ← g.horz_wall y w none (wallOf x)
  let g2 ← g1.horz_wall (y + h - 1) w none (wallOf x)
  let g3 ← g2.vert_wall y h none (wallOf x)
  g3.vert_wall y h none (wallOf (x + w - 1))

/-- A sample external Wall factory result for each value received. -/
def wallOfC : Nat → WorldObj := fun n => ⟨9, n, false, [9, n, 0]⟩

/-- C4 (the code evaluated at the failing input): on a 5x5 grid,
`wall_rect(1, 1, 3, 3)` leaves the rectangle-corner cells (1,1) and (3,1)
empty and instead fills row 3 from column 1 onward and column 1 from row 3
downward — the four rectangle edges are not drawn because the arguments are
shifted by one position. -/
theorem C4_wall_rect_argument_shift :
    ((Grid.mk0 5 5).wall_rect wallOfC 1 1 3 3).map
      (fun g' => (g'.get 1 1, g'.get 3 1, g'.get 2 3, g'.get 4 3, g'.get 1 4)) =
      some (none, none, some (wallOfC 1), some (wallOfC 1), some (wallOfC 3)) := by
  decide

/- ### rotate_left -/

/-- Grid.rotate_left with the loop state threaded explicitly: each iteration
reads `v = self.get(i, j)` from the receiver (first component) and performs
`grid.set(j, grid.height - 1 - i, v)` on the freshly built grid (second
component), so the embedding shows exactly which grid each statement
touches.  The fresh grid starts as `Grid(self.height, self.width)`. -/
def Grid.rotate_leftS (g0 : Grid) : Grid × Grid :=
  (List.range g0.width).foldl
    (fun s i => (List.range g0.height).foldl
      (fun s2 j => (s2.1, s2.2.set j (s2.2.height - 1 - i) (s2.1.get i j))) s)
    (g0, Grid.mk0 g0.height g0.width)

/-- Grid.rotate_left returns the freshly built grid. -/
def Grid.rotate_left (g : Grid) : Grid := g.rotate_leftS.2

theorem rot_inner_eq (src : Grid) (i : Nat) :
    ∀ (L : List Nat) (acc : Grid),
    L.foldl (fun s2 j => (s2.1, s2.2.set j (s2.2.height - 1 - i) (s2.1.get i j)))
      (src, acc) =
    (src, L.foldl (fun a j => a.set j (a.height - 1 - i) (src.get i j)) acc) := by
  intro L
  induction L with
  | nil => intro acc; rfl
  | cons j t ih => intro acc; exact ih (acc.set j (acc.height - 1 - i) (src.get i j))

theorem rot_outer_eq (g0 src : Grid) :
    ∀ (L : List Nat) (acc : Grid),
    L.foldl (fun s i => (List.range g0.height).foldl
      (fun s2 j => (s2.1, s2.2.set j (s2.2.height - 1 - i) (s2.1.get i j))) s)
      (src, acc) =
    (src, L.foldl (fun a i => (List.range g0.height).foldl
      (fun a2 j => a2.set j (a2.height - 1 - i) (src.get i j)) a) acc) := by
  intro L
  induction L with
  | nil => intro acc; rfl
  | cons i t ih =>
      intro acc
      rw [List.foldl_cons, rot_inner_eq src i]
      exact ih _

/-- C10: `rotate_left` does not mutate its receiver — through the whole
double loop the receiver component of the state is only read, so it comes
out exactly as it went in (same width, height, and every cell slot). -/
theorem C10_rotate_left_receiver_unchanged (g : Grid) : g.rotate_leftS.1 = g := by
  unfold Grid.rotate_leftS
  rw [rot_outer_eq g g]

theorem rot_inner_char (g0 : Grid) (i : Nat) (hi : i < g0.width) :
    ∀ (L : List Nat) (acc : Grid),
    acc.width = g0.height → acc.height = g0.width →
    acc.cells.length = acc.width * acc.height →
    (∀ a ∈ L, a < g0.height) →
    (L.foldl (fun a j => a.set j (a.height - 1 - i) (g0.get i j)) acc).width = acc.width ∧
    (L.foldl (fun a j => a.set j (a.height - 1 - i) (g0.get i j)) acc).height = acc.height ∧
    (L.foldl (fun a j => a.set j (a.height - 1 - i) (g0.get i j)) acc).cells.length =
      acc.cells.length ∧
    ∀ x y, x < acc.width → y < acc.height →
      (L.foldl (fun a j => a.set j (a.height - 1 - i) (g0.get i j)) acc).get x y =
        if x ∈ L ∧ y = g0.width - 1 - i then g0.get i x else acc.get x y := by
  intro L
  induction L with
  | nil =>
      intro acc _ _ _ _
      refine ⟨rfl, rfl, rfl, ?_⟩
      intro x y _ _
      rw [if_neg (fun hcc => by cases hcc.1)]
      rfl
  | cons j t ih =>
      intro acc haw hah halen hmem
      rw [List.foldl_cons]
      have hjw : j < acc.width := by
        rw [haw]; exact hmem j (List.mem_cons_self j t)
      have hrow : acc.height - 1 - i < acc.height := by omega
      have hd := ih (acc.set j (acc.height - 1 - i) (g0.get i j))
        (by simp [haw]) (by simp [hah]) (by simp [halen])
        (fun a ha => hmem a (List.mem_cons_of_mem j ha))
      obtain ⟨hw2, hh2, hl2, hget2⟩ := hd
      refine ⟨by simp_all, by simp_all, by simp_all, ?_⟩
      intro x y hx hy
      rw [hget2 x y (by simp [hx]) (by simp [hy])]
      have hyrow : acc.height - 1 - i = g0.width - 1 - i := by omega
      by_cases ct : x ∈ t ∧ y = g0.width - 1 - i
      · rw [if_pos ct, if_pos ⟨List.mem_cons_of_mem j ct.1, ct.2⟩]
      · rw [if_neg ct]
        by_cases ca : x = j ∧ y = acc.height - 1 - i
        · rcases ca with ⟨rfl, rfl⟩
          rw [Grid.get_set_self (g0.get i x) halen hjw hrow]
          rw [if_pos ⟨List.mem_cons_self x t, by omega⟩]
        · rw [Grid.get_set_of_ne (g0.get i j) hjw hx ca]
          rw [if_neg (fun hcc => by
            rcases List.mem_cons.mp hcc.1 with rfl | hmt
            · exact ca ⟨rfl, by omega⟩
            · exact ct ⟨hmt, hcc.2⟩)]

theorem rot_outer_char (g0 : Grid) :
    ∀ (L : List Nat) (acc : Grid),
    acc.width = g0.height → acc.height = g0.width →
    acc.cells.length = acc.width * acc.height →
    (∀ a ∈ L, a < g0.width) →
    (L.foldl (fun a i => (List.range g0.height).foldl
      (fun a2 j => a2.set j (a2.height - 1 - i) (g0.get i j)) a) acc).width = acc.width ∧
    (L.foldl (fun a i => (List.range g0.height).foldl
      (fun a2 j => a2.set j (a2.height - 1 - i) (g0.get i j)) a) acc).height = acc.height ∧
    (L.foldl (fun a i => (List.range g0.height).foldl
      (fun a2 j => a2.set j (a2.height - 1 - i) (g0.get i j)) a) acc).cells.length =
      acc.cells.length ∧
    ∀ x y, x < acc.width → y < acc.height →
      (L.foldl (fun a i => (List.range g0.height).foldl
        (fun a2 j => a2.set j (a2.height - 1 - i) (g0.get i j)) a) acc).get x y =
        if ∃ i, i ∈ L ∧ y = g0.width - 1 - i then g0.get (g0.width - 1 - y) x
        else acc.get x y := by
  intro L
  induction L with
  | nil =>
      intro acc _ _ _ _
      refine ⟨rfl, rfl, rfl, ?_⟩
      intro x y _ _
      rw [if_neg (fun hcc => by
        obtain ⟨i, hi, _⟩ := hcc
        cases hi)]
      rfl
  | cons i t ih =>
      intro acc haw hah halen hmem
      rw [List.foldl_cons]
      have hi : i < g0.width := hmem i (List.mem_cons_self i t)
      have hinner := rot_inner_char g0 i hi (List.range g0.height) acc haw hah halen
        (fun a ha => List.mem_range.mp ha)
      obtain ⟨hw1, hh1, hl1, hget1⟩ := hinner
      have houter := ih ((List.range g0.height).foldl
        (fun a2 j => a2.set j (a2.height - 1 - i) (g0.get i j)) acc)
        (by rw [hw1]; exact haw) (by rw [hh1]; exact hah)
        (by rw [hl1, hw1, hh1]; exact halen)
        (fun a ha => hmem a (List.mem_cons_of_mem i ha))
      obtain ⟨hw2, hh2, hl2, hget2⟩ := houter
      refine ⟨by omega, by omega, by omega, ?_⟩
      intro x y hx hy
      rw [hget2 x y (by omega) (by omega)]
      by_cases ct : ∃ i2, i2 ∈ t ∧ y = g0.width - 1 - i2
      · rw [if_pos ct]
        obtain ⟨i2, hi2, hy2⟩ := ct
        rw [if_pos ⟨i2, List.mem_cons_of_mem i hi2, hy2⟩]
      · rw [if_neg ct, hget1 x y hx hy]
        by_cases ca : x ∈ List.range g0.height ∧ y = g0.width - 1 - i
        · rw [if_pos ca]
          have hyi : g0.width - 1 - y = i := by
            have := ca.2
            omega
          rw [if_pos ⟨i, List.mem_cons_self i t, ca.2⟩, hyi]
        · rw [if_neg ca]
          rw [if_neg (fun hcc => by
            obtain ⟨i2, hmem2, hy2⟩ := hcc
            rcases List.mem_cons.mp hmem2 with rfl | hmt
            · exact ca ⟨List.mem_range.mpr (by omega), hy2⟩
            · exact ct ⟨i2, hmt, hy2⟩)]

theorem Grid.rotate_left_char (g : Grid) :
    g.rotate_left.width = g.height ∧ g.rotate_left.height = g.width ∧
    g.rotate_left.cells.length = g.rotate_left.width * g.rotate_left.height ∧
    ∀ x y, x < g.height → y < g.width →
      g.rotate_left.get x y = g.get (g.width - 1 - y) x := by
  have hsplit : g.rotate_left = (List.range g.width).foldl
      (fun a i => (List.range g.height).foldl
        (fun a2 j => a2.set j (a2.height - 1 - i) (g.get i j)) a)
      (Grid.mk0 g.height g.width) := by
    unfold Grid.rotate_left Grid.rotate_leftS
    rw [rot_outer_eq g g]
  have hchar := rot_outer_char g (List.range g.width) (Grid.mk0 g.height g.width)
    rfl rfl (by simp [Grid.mk0]) (fun a ha => List.mem_range.mp ha)
  obtain ⟨hw, hh, hl, hget⟩ := hchar
  rw [hsplit]
  refine ⟨hw, hh, by rw [hl, hw, hh]; simp [Grid.mk0], ?_⟩
  intro x y hx hy
  rw [hget x y (by simpa [Grid.mk0] using hx) (by simpa [Grid.mk0] using hy)]
  rw [if_pos ⟨g.width - 1 - y, List.mem_range.mpr (by omega), by omega⟩]

theorem Grid.encode_congr {g1 g2 : Grid} (world : World) (vis : Nat → Nat → Bool)
    (hw : g1.width = g2.width) (hh : g1.height = g2.height)
    (hget : ∀ i j, i < g2.width → j < g2.height → g1.get i j = g2.get i j) :
    g1.encode world vis = g2.encode world vis := by
  unfold Grid.encode
  rw [hw, hh]
  apply List.map_congr_left
  intro i hi
  apply List.map_congr_left
  intro j hj
  rw [hget i j (List.mem_range.mp hi) (List.mem_range.mp hj)]

/-- C8: `rotate_left` swaps width and height, maps source cell `(i, j)` to
`(j, new_height - 1 - i)` of the result, and applying it four times yields a
grid with the original width and height whose world-frame encoding equals
the original's. -/
theorem C8_rotate_left_quarter_turn (g : Grid) :
    g.rotate_left.width = g.height ∧ g.rotate_left.height = g.width ∧
    (∀ i j, i < g.width → j < g.height →
      g.rotate_left.get j (g.rotate_left.height - 1 - i) = g.get i j) ∧
    g.rotate_left.rotate_left.rotate_left.rotate_left.width = g.width ∧
    g.rotate_left.rotate_left.rotate_left.rotate_left.height = g.height ∧
    ∀ world : World,
      g.rotate_left.rotate_left.rotate_left.rotate_left.encode world allVis =
        g.encode world allVis := by
  obtain ⟨hw1, hh1, hl1, hget1⟩ := Grid.rotate_left_char g
  set r1 := g.rotate_left with hr1
  obtain ⟨hw2, hh2, hl2, hget2⟩ := Grid.rotate_left_char r1
  set r2 := r1.rotate_left with hr2
  obtain ⟨hw3, hh3, hl3, hget3⟩ := Grid.rotate_left_char r2
  set r3 := r2.rotate_left with hr3
  obtain ⟨hw4, hh4, hl4, hget4⟩ := Grid.rotate_left_char r3
  set r4 := r3.rotate_left with hr4
  have d1w : r1.width = g.height := hw1
  have d1h : r1.height = g.width := hh1
  have d2w : r2.width = g.width := by omega
  have d2h : r2.height = g.height := by omega
  have d3w : r3.width = g.height := by omega
  have d3h : r3.height = g.width := by omega
  have d4w : r4.width = g.width := by omega
  have d4h : r4.height = g.height := by omega
  have hr4get : ∀ x y, x < g.width → y < g.height → r4.get x y = g.get x y := by
    intro x y hx hy
    have h1 := hget4 x y (by omega) (by omega)
    have h2 := hget3 (r3.width - 1 - y) x (by omega) (by omega)
    have h3 := hget2 (r2.width - 1 - x) (r3.width - 1 - y) (by omega) (by omega)
    have h4 := hget1 (r1.width - 1 - (r3.width - 1 - y)) (r2.width - 1 - x)
      (by omega) (by omega)
    rw [h1, h2, h3, h4]
    have e1 : g.width - 1 - (r2.width - 1 - x) = x := by omega
    have e2 : r1.width - 1 - (r3.width - 1 - y) = y := by omega
    rw [e1, e2]
  refine ⟨d1w, d1h, ?_, d4w, d4h, ?_⟩
  · intro i j hi hj
    have hmap := hget1 j (r1.height - 1 - i) (by omega) (by omega)
    rw [hmap]
    have e3 : g.width - 1 - (r1.height - 1 - i) = i := by omega
    rw [e3]
  · intro world
    exact Grid.encode_congr world allVis d4w d4h hr4get

/-- A non-square sample grid for the rotation witness. -/
def gR : Grid := (Grid.mk0 3 4).set 1 2 (some objA)

theorem C8_witness :
    gR.rotate_left.get 2 (gR.rotate_left.height - 1 - 1) = gR.get 1 2 :=
  (C8_rotate_left_quarter_turn gR).2.2.1 1 2 (by decide) (by decide)

end GymMultigrid
